import Mathlib

/-!
Verification development for `VCFCons.py` (CoSA repository).

The Python source is shallowly embedded below.  Machine integers are `Int`
(Python integers are unbounded, so no wrap-around modelling is needed),
Python exceptions are an explicit `PyErr` error type threaded through
`Except`, the `collections.Counter` used by the pileup decoder is modelled
as the list of recorded keys (a lookup is `List.count`), and the
position-keyed dictionary `newseqlist` is modelled as a
`List (Option String)` whose index is the 0-based position; `none` marks a
key deleted by `del newseqlist[...]`.  While-loops whose control variable
advances by one are translated as structural recursion on the remaining
suffix of the table; the one loop with non-unit jumps (the fragment
emission loop) uses an explicit iteration bound that exceeds the number of
iterations the Python loop can perform.
-/

namespace VCFConsSpec

/-- The Python exceptions / fatal exits that the embedded code can raise. -/
inductive PyErr where
  | keyError
  | nameError
  | unboundLocalError
  | assertionError
  | attributeError
  | valueError
  | zeroDivisionError
  | unknownBaseError
  | formatError
  | fuelExhausted
  deriving Repr, DecidableEq

/-- State of the `parse_readBase` scanning loop (`VCFCons.py` lines 80-122):
`counts` is the multiset of keys recorded into `self.counts` (a
`Counter` increment `counts[k] += 1` appends `k`), `sanity` is
`sanity_counter`. -/
structure ScanState where
  counts : List String
  sanity : Nat
  deriving Repr, DecidableEq

/-- One step of the `while i < len(self.readBase)` loop: either the loop
ends (`done`), raises (`error`), or continues (`cont`) at a new index with a new
state. -/
inductive StepRes where
  | error (e : PyErr)
  | done (st : ScanState)
  | cont (i : Nat) (st : ScanState)
  deriving Repr, DecidableEq

/-- Python slice `rb[s:e]` (clamping, as Python slices do). -/
def slice (rb : List Char) (s e : Nat) : List Char :=
  (rb.drop s).take (e - s)

/-- Value of a string of decimal digits, as `int(...)` computes it on the
digit run found by the regex. -/
def decimalVal (cs : List Char) : Nat :=
  cs.foldl (fun a c => a * 10 + (c.toNat - 48)) 0

/-- Scan of `re.search('(\d+)', rb, st)` for the first digit at index
`st` or later: helper walking the suffix `rb.drop st`. -/
def findDigitStartAux : List Char → Nat → Option Nat
  | [], _ => none
  | c :: rest, st => if c.isDigit then some st else findDigitStartAux rest (st + 1)

/-- Index of the first digit of `rb` at position `st` or later
(`m.start()` of the regex match), if any. -/
def findDigitStart (rb : List Char) (st : Nat) : Option Nat :=
  findDigitStartAux (rb.drop st) st

/-- End (exclusive) of the maximal digit run starting before index `e`:
helper walking the suffix. -/
def digitRunEndAux : List Char → Nat → Nat
  | [], e => e
  | c :: rest, e => if c.isDigit then digitRunEndAux rest (e + 1) else e

/-- `m.end()` of the regex match whose digits continue from index `e`. -/
def digitRunEnd (rb : List Char) (e : Nat) : Nat :=
  digitRunEndAux (rb.drop e) e

/-- `read_indel(start_index)` (`VCFCons.py` lines 75-78): the regex match
over the digits gives `(m.start(), m.end() + num)`; when the regex finds
no digit, `m` is `None` and `m.start()` raises `AttributeError`, modelled
by `none`. -/
def read_indel (rb : List Char) (start_index : Nat) : Option (Nat × Nat) :=
  match findDigitStart rb start_index with
  | none => none
  | some ds =>
    let de := digitRunEnd rb (ds + 1)
    some (ds, de + decimalVal (slice rb ds de))

/-- Python `str.upper()` on the ASCII strings handled here: per-character
upper-casing of the character data. -/
def pyUpper (s : String) : String := ⟨s.data.map Char.toUpper⟩

/-- Python `str.lower()`: per-character lower-casing. -/
def pyLower (s : String) : String := ⟨s.data.map Char.toLower⟩

/-- The ten base characters of the Python string `'ATCGNatcgn'`. -/
def baseChars : List Char := ['A', 'T', 'C', 'G', 'N', 'a', 't', 'c', 'g', 'n']

/-- One iteration of the body of the `parse_readBase` loop
(`VCFCons.py` lines 83-121), at index `i` with state `st`; `ref` is
`self.ref` (already upper-cased by `__init__`). -/
def parseStep (rb : List Char) (ref : String) (i : Nat) (st : ScanState) : StepRes :=
  match rb.get? i with
  | none => .done st
  | some b =>
    if b = '<' ∨ b = '>' then
      .cont (i + 1) { st with sanity := st.sanity + 1 }
    else if b = '*' then
      .cont (i + 1) { st with sanity := st.sanity + 1 }
    else if b = '^' then
      .cont (i + 3) { st with sanity := st.sanity + 1 }
    else if b = '$' then
      .cont (i + 1) st
    else if b = '.' then
      .cont (i + 1) ⟨st.counts ++ [ref], st.sanity + 1⟩
    else if b = ',' then
      .cont (i + 1) ⟨st.counts ++ [pyLower ref], st.sanity + 1⟩
    else if b ∈ baseChars then
      .cont (i + 1) ⟨st.counts ++ [String.singleton b], st.sanity + 1⟩
    else if b = '-' then
      match read_indel rb (i + 1) with
      | none => .error .attributeError
      | some (s, e) => .cont e ⟨st.counts ++ ["-" ++ String.mk (slice rb s e)], st.sanity⟩
    else if b = '+' then
      match read_indel rb (i + 1) with
      | none => .error .attributeError
      | some (s, e) => .cont e ⟨st.counts ++ ["+" ++ String.mk (slice rb s e)], st.sanity⟩
    else
      .error .unknownBaseError

/-- The `parse_readBase` while-loop, driven by `parseStep`.  Every
`continue` advances `i` by at least one, so `rb.length + 1` iterations
always suffice; the `fuel` parameter makes the recursion structural. -/
def parseScanAux (rb : List Char) (ref : String) : Nat → Nat → ScanState → Except PyErr ScanState
  | 0, _, _ => .error .fuelExhausted
  | fuel + 1, i, st =>
    match parseStep rb ref i st with
    | .error e => .error e
    | .done st2 => .ok st2
    | .cont i2 st2 => parseScanAux rb ref fuel i2 st2

/-- The complete scanning loop of `parse_readBase` starting from index 0
with empty counter. -/
def parse_readBaseScan (rb : List Char) (ref : String) : Except PyErr ScanState :=
  parseScanAux rb ref (rb.length + 1) 0 ⟨[], 0⟩

/-- `parse_readBase` (`VCFCons.py` lines 67-123) up to and including the
sanity assertion on line 123:
`assert self.cov == sanity_counter or (self.readBase=='*' and self.cov==0)`.
`cov` is `self.cov` (4th mpileup column, a Python int). -/
def parse_readBase (rb : List Char) (ref : String) (cov : Int) : Except PyErr ScanState :=
  match parse_readBaseScan rb ref with
  | .error e => .error e
  | .ok st =>
    if cov = (st.sanity : Int) ∨ (rb = ['*'] ∧ cov = 0) then .ok st
    else .error .assertionError

/-- `self.nCov` (`VCFCons.py` lines 125-128): coverage provided by
non-indel non-skipped bases. -/
def nCovOf (counts : List String) : Nat :=
  (baseChars.map (fun c => counts.count (String.singleton c))).sum

/-- `self.nType` (`VCFCons.py` lines 126-129): number of distinct plain
bases observed. -/
def nTypeOf (counts : List String) : Nat :=
  (baseChars.filter (fun c => 0 < counts.count (String.singleton c))).length

/-- An `MPileUpRecord` (`VCFCons.py` lines 38-56) after a successful
`__init__`: the seven mpileup columns plus the derived `counts`, `nCov`
and `nType`.  `pos` is 0-based (`__init__` receives `int(raw[1])-1`). -/
structure MPileUpRecord where
  chr : String
  pos : Int
  ref : String
  cov : Int
  readBase : List Char
  baseQuals : String
  alnQuals : String
  counts : List String
  nCov : Nat
  nType : Nat
  deriving Repr, DecidableEq

/-- `MPileUpRecord.__init__` (`VCFCons.py` lines 39-56): upper-cases the
reference base, runs `parse_readBase` (which can raise), and fills in the
derived fields. -/
def mkMPileUpRecord (chr : String) (pos : Int) (ref : String) (cov : Int)
    (readBase : List Char) (baseQuals alnQuals : String) : Except PyErr MPileUpRecord :=
  match parse_readBase readBase (pyUpper ref) cov with
  | .error e => .error e
  | .ok st =>
    .ok ⟨chr, pos, pyUpper ref, cov, readBase, baseQuals, alnQuals,
         st.counts, nCovOf st.counts, nTypeOf st.counts⟩

/-- Helper for `pyInt`: a non-empty all-digit character list and its
value. -/
def pyIntDigits (cs : List Char) : Option Nat :=
  if cs ≠ [] ∧ cs.all Char.isDigit then some (decimalVal cs) else none

/-- Python `int(s)` on a stripped field: an optional minus sign followed
by decimal digits; `none` models the `ValueError` raised on a
non-numeric field. -/
def pyInt (s : String) : Option Int :=
  match s.data with
  | '-' :: rest => (pyIntDigits rest).map (fun n => -(n : Int))
  | cs => (pyIntDigits cs).map (fun n => (n : Int))

/-- `MPileUpReader.parseLine` (`VCFCons.py` lines 149-175).  The argument
is the field list `line.strip().split('\t')`.  A 7- or 15-field line is
parsed as a full record from its first seven fields; a 4-field line (no
reads left after base-quality filtering) synthesizes a record with
coverage 0 and empty readBase; any other field count raises the
`Exception` of line 174 (`formatError`). -/
def parseLine (raw : List String) : Except PyErr MPileUpRecord :=
  if raw.length = 7 ∨ raw.length = 15 then
    match pyInt (raw.getD 3 "") with
    | none => .error .valueError
    | some cov =>
      match pyInt (raw.getD 1 "") with
      | none => .error .valueError
      | some pos1 =>
        mkMPileUpRecord (raw.getD 0 "") (pos1 - 1) (raw.getD 2 "") cov
          (raw.getD 4 "").data (raw.getD 5 "") (raw.getD 6 "")
  else if raw.length = 4 then
    match pyInt (raw.getD 1 "") with
    | none => .error .valueError
    | some pos1 =>
      mkMPileUpRecord (raw.getD 0 "") (pos1 - 1) (raw.getD 2 "") 0 [] "" ""
  else .error .formatError

/-!
## The consensus table

`newseqlist` starts as `dict(zip(range(len(refseq)), list(refseq)))`
(`VCFCons.py` line 256): a dictionary keyed by 0-based position.  It is
modelled as a `List (Option String)` whose index is the position; `none`
is a key removed by `del`.  `len(newseqlist)` is the number of present
keys, `i in newseqlist` is `entry tbl i ≠ none`, and `newseqlist[i]` on a
missing key is a `KeyError`.
-/

/-- Dictionary lookup `newseqlist[i]` as an `Option` (missing key =
`none`). -/
def entry (tbl : List (Option String)) (i : Nat) : Option String :=
  (tbl.get? i).getD none

/-- `len(newseqlist)`: the number of keys present in the dictionary. -/
def presentCount (tbl : List (Option String)) : Nat :=
  tbl.countP Option.isSome

/-- Helper for `make_seq_from_list`, walking `n` consecutive positions of
the remaining suffix; an absent position contributes nothing. -/
def makeSeqAux : List (Option String) → Nat → String
  | _, 0 => ""
  | [], _ + 1 => ""
  | e :: rest, n + 1 => e.getD "" ++ makeSeqAux rest n

/-- `make_seq_from_list(seqlist, start0, end1)` (`VCFCons.py` lines
178-183): concatenates the entries present at positions
`start0 ≤ i < end1`. -/
def make_seq_from_list (tbl : List (Option String)) (start0 end1 : Nat) : String :=
  makeSeqAux (tbl.drop start0) (end1 - start0)

/-- `newseqlist` as initialised on line 256: every position holds the
one-character string of the reference base. -/
def initTable (refseq : List Char) : List (Option String) :=
  refseq.map (fun c => some (String.singleton c))

/-- `depth_per_pos` lookup (last binding wins, as repeated dictionary
assignment does).  Keys are 0-based positions as Python ints. -/
def depthLookup (depth : List (Int × Int)) (p : Int) : Option Int :=
  depth.reverse.lookup p

/-- `min(depth_per_pos)`: minimum over the keys, `none` when the
dictionary is empty (in which case Python raises `ValueError`). -/
def minKey (depth : List (Int × Int)) : Option Int :=
  depth.foldl (fun acc kv =>
    match acc with
    | none => some kv.1
    | some m => some (min m kv.1)) none

/-- `max(depth_per_pos)`: maximum over the keys, `none` when empty. -/
def maxKey (depth : List (Int × Int)) : Option Int :=
  depth.foldl (fun acc kv =>
    match acc with
    | none => some kv.1
    | some m => some (max m kv.1)) none

/-- The masking applied to one cell by the loop on lines 257-258:
`if pos0 not in depth_per_pos or depth_per_pos[pos0] < min_coverage:
newseqlist[pos0] = 'N'`. -/
def maskDepthCell (depth : List (Int × Int)) (min_coverage : Int) (pos0 : Nat)
    (e : Option String) : Option String :=
  match depthLookup depth (pos0 : Int) with
  | none => some "N"
  | some v => if v < min_coverage then some "N" else e

/-- The loop on lines 257-258 over all positions, walking the table with
its current position. -/
def maskDepthAux (depth : List (Int × Int)) (min_coverage : Int) :
    Nat → List (Option String) → List (Option String)
  | _, [] => []
  | p, e :: rest => maskDepthCell depth min_coverage p e :: maskDepthAux depth min_coverage (p + 1) rest

/-- The masking applied to one cell by the two loops on lines 260-261:
positions below `min(depth_per_pos)` and positions from
`max(depth_per_pos)` (inclusive) on are overwritten with `'N'`. -/
def maskEndsCell (mn mx : Int) (pos0 : Nat) (e : Option String) : Option String :=
  if (pos0 : Int) < mn ∨ mx ≤ (pos0 : Int) then some "N" else e

/-- The two loops on lines 260-261 over all positions. -/
def maskEndsAux (mn mx : Int) : Nat → List (Option String) → List (Option String)
  | _, [] => []
  | p, e :: rest => maskEndsCell mn mx p e :: maskEndsAux mn mx (p + 1) rest

/-- The consensus table after lines 256-261 (initialisation, coverage
masking, begin/end masking) with no variants applied.  An empty depth
table makes `min(depth_per_pos)` on line 260 raise `ValueError`. -/
def genVCFcons_table (refseq : List Char) (depth : List (Int × Int))
    (min_coverage : Int) : Except PyErr (List (Option String)) :=
  match minKey depth, maxKey depth with
  | some mn, some mx =>
    .ok (maskEndsAux mn mx 0 (maskDepthAux depth min_coverage 0 (initTable refseq)))
  | _, _ => .error .valueError

/-!
## Fragment emission (lines 339-352)
-/

/-- The loop `while newseqlist[i]=='N': i += 1` on line 341, walking the
suffix `tbl.drop i`: a missing key (deleted position, or `i` past the
table) raises `KeyError`. -/
def firstNonNAux : List (Option String) → Nat → Except PyErr Nat
  | [], _ => .error .keyError
  | none :: _, _ => .error .keyError
  | some s :: rest, i => if s = "N" then firstNonNAux rest (i + 1) else .ok i

/-- Index of the first position whose entry is present and not `"N"`,
scanning from position 0 (line 341). -/
def firstNonN (tbl : List (Option String)) : Except PyErr Nat :=
  firstNonNAux tbl 0

/-- The loop on line 346:
`while j < len(newseqlist) and ((j not in newseqlist) or newseqlist[j]!='N'): j+=1`,
walking the suffix `tbl.drop j`.  Once the suffix is exhausted every
position is a missing key, so the loop runs on until `j` reaches `size`. -/
def scanJAux (size : Nat) : List (Option String) → Nat → Nat
  | [], j => if j < size then size else j
  | e :: rest, j =>
    if j < size ∧ e ≠ some "N" then scanJAux size rest (j + 1) else j

/-- `j` after the loop on line 346, started at position `j0`. -/
def scanJ (tbl : List (Option String)) (size j0 : Nat) : Nat :=
  scanJAux size (tbl.drop j0) j0

/-- The loop on line 350:
`while i < len(newseqlist)-1 and ((i not in newseqlist) or newseqlist[i]=='N'): i+=1`,
walking the suffix.  Past the end of the table every key is missing, so
the loop runs on until `i` reaches `size - 1`. -/
def scanIAux (size : Nat) : List (Option String) → Nat → Nat
  | [], i => if i < size - 1 then size - 1 else i
  | e :: rest, i =>
    if i < size - 1 ∧ (e = none ∨ e = some "N") then scanIAux size rest (i + 1) else i

/-- `i` after the loop on line 350, started at position `i0`. -/
def scanI (tbl : List (Option String)) (size i0 : Nat) : Nat :=
  scanIAux size (tbl.drop i0) i0

/-- One emitted fragment: the label number `i+1` (printed as
`frag{i+1}`) and the fragment sequence `make_seq_from_list(newseqlist, i, j)`. -/
abbrev Frag := Nat × String

/-- The outer loop `while i < len(newseqlist)-1` on lines 342-350.
Returns the emitted fragments, the final `i`, and the `j` of the last
iteration (`jPrev` when no iteration ran).  Each iteration advances `i`
by at least two, so `size + 1` iterations always suffice; `fuel` makes
the recursion structural. -/
def emitLoop (tbl : List (Option String)) (size : Nat) :
    Nat → Nat → Nat → Except PyErr (List Frag × Nat × Nat)
  | 0, _, _ => .error .fuelExhausted
  | fuel + 1, i, jPrev =>
    if i < size - 1 then
      match emitLoop tbl size fuel
          (scanI tbl size (scanJ tbl size (i + 1) + 1)) (scanJ tbl size (i + 1)) with
      | .error e => .error e
      | .ok (rest, iF, jF) =>
        .ok ((i + 1, make_seq_from_list tbl i (scanJ tbl size (i + 1))) :: rest, iF, jF)
    else .ok ([], i, jPrev)

/-- Fragment emission, lines 340-351.  When the first `while` scan runs
off the table, `KeyError` (line 341); when the outer loop never runs,
the final `if j>i` on line 351 reads the unbound local `j`, a
`NameError`. -/
def emitFrags (tbl : List (Option String)) : Except PyErr (List Frag) :=
  match firstNonN tbl with
  | .error e => .error e
  | .ok i0 =>
    if i0 < presentCount tbl - 1 then
      match emitLoop tbl (presentCount tbl) (presentCount tbl + 1) i0 0 with
      | .error e => .error e
      | .ok (frags, iF, jF) =>
        if jF > iF then .ok (frags ++ [(iF + 1, make_seq_from_list tbl iF jF)])
        else .ok frags
    else .error .nameError

/-- Lines 334-352 given the final consensus table: the full consensus
FASTA sequence (`make_seq_from_list(newseqlist, 0, len(refseq))`, written
first) paired with the result of fragment emission (which runs after the
full consensus file is already written and closed). -/
def consensusOutputs (tbl : List (Option String)) (refLen : Nat) :
    String × Except PyErr (List Frag) :=
  (make_seq_from_list tbl 0 refLen, emitFrags tbl)

/-- `genVCFcons` restricted to an empty variant set (the VCF loop on
lines 266-331 never runs): table construction followed by the two output
phases. -/
def genVCFcons_outputs (refseq : List Char) (depth : List (Int × Int))
    (min_coverage : Int) : Except PyErr (String × Except PyErr (List Frag)) :=
  match genVCFcons_table refseq depth min_coverage with
  | .error e => .error e
  | .ok tbl => .ok (consensusOutputs tbl refseq.length)

/-!
## Per-variant support resolution and classification (lines 246-249, 279-323)
-/

/-- Lines 246-249: the local `info_per_pos` (0-based position to pileup
record) is assigned only inside `if use_vcf_info:`; otherwise the local
stays unbound (`none`).  The dictionary itself is modelled by the record
list; `lookupInfoPerPos` performs the position lookup. -/
def buildInfoPerPos (use_vcf_info : Bool) (pileupRecs : List MPileUpRecord) :
    Option (List MPileUpRecord) :=
  if use_vcf_info then some pileupRecs else none

/-- `info_per_pos[pos0]` with last-assignment-wins dictionary semantics. -/
def lookupInfoPerPos (recs : List MPileUpRecord) (pos0 : Int) : Option MPileUpRecord :=
  recs.reverse.find? (fun r => r.pos == pos0)

/-- Lines 279-302: resolution of `total_cov` for one variant.  With
`use_vcf_info` the value comes from the VCF DP field (abstracted as
`vcf_DP`, lines 279-299); otherwise line 301 reads the local
`info_per_pos` — `UnboundLocalError` if it was never assigned, then
`KeyError` if the variant position is not a key — and line 302 uses the
record's raw coverage. -/
def resolveTotalCoverage (use_vcf_info : Bool)
    (info_per_pos : Option (List MPileUpRecord)) (vcf_DP : Int) (vPOS : Int) :
    Except PyErr Int :=
  if use_vcf_info then .ok vcf_DP
  else
    match info_per_pos with
    | none => .error .unboundLocalError
    | some recs =>
      match lookupInfoPerPos recs (vPOS - 1) with
      | none => .error .keyError
      | some mrec => .ok mrec.cov

/-- Outcome of the threshold cascade on lines 314-323 for one variant. -/
inductive VariantDecision where
  | rejectLowCoverage
  | rejectLowFrequency
  | rejectLowQuality
  | accept (qualMissingWarning : Bool)
  deriving Repr, DecidableEq

/-- Lines 312-323: `alt_freq = alt_count * 1. / total_cov` (a
`ZeroDivisionError` when `total_cov == 0`), then the `if/elif` cascade:
low coverage, low frequency, low quality (only checked when `v.QUAL` is
present), otherwise accept — with a warning logged when `v.QUAL` is
absent. -/
def classifyVariant (total_cov alt_count : Int) (qual : Option ℚ)
    (min_coverage : Int) (min_alt_freq min_qual : ℚ) : Except PyErr VariantDecision :=
  if total_cov = 0 then .error .zeroDivisionError
  else
    let alt_freq : ℚ := (alt_count : ℚ) / (total_cov : ℚ)
    if total_cov < min_coverage then .ok .rejectLowCoverage
    else if alt_freq < min_alt_freq then .ok .rejectLowFrequency
    else
      match qual with
      | some q => if q < min_qual then .ok .rejectLowQuality else .ok (.accept false)
      | none => .ok (.accept true)

/-- The `--min_alt_freq` validation on lines 369-371:
`if args.min_alt_freq >= 1 or args.min_alt_freq <= 0: ... sys.exit(-1)`.
`true` means the configuration is rejected as fatal.  This check runs
before the input-file existence checks on lines 377-387. -/
def minAltFreqRejected (f : ℚ) : Bool :=
  decide (1 ≤ f) || decide (f ≤ 0)

/-!
## Helper lemmas
-/

theorem string_ext {s t : String} (h : s.data = t.data) : s = t := by
  cases s; cases t; exact congrArg String.mk h

theorem string_data_append (s t : String) : (s ++ t).data = s.data ++ t.data := rfl

theorem string_append_assoc (a b c : String) : a ++ b ++ c = a ++ (b ++ c) :=
  string_ext (by simp [string_data_append])

/-!
## Claim theorems
-/

/-- Claim C1 (code bug): in pileup-derived mode (`use_vcf_info` off) the
position-indexed lookup table `info_per_pos` is supposed to be built so
that the per-variant lookup is defined; in the code the table is built
only under `if use_vcf_info:` (line 246) while the lookup on line 301
runs in the opposite branch, so in pileup-derived mode the local is never
assigned and the first variant raises `UnboundLocalError`. -/
theorem C1_pileupMode_lookupUnbound :
    (∀ recs : List MPileUpRecord, buildInfoPerPos false recs = none) ∧
    (∀ (recs : List MPileUpRecord) (vcf_DP vPOS : Int),
      resolveTotalCoverage false (buildInfoPerPos false recs) vcf_DP vPOS =
        .error .unboundLocalError) :=
  ⟨fun _ => rfl, fun _ _ _ => rfl⟩

/-- Claim C8 (code bug): the configuration check on line 369 rejects
`--min_alt_freq = 1` (`args.min_alt_freq >= 1` fires) even though the
value 1 lies inside the documented valid interval `(0, 1]` — the error
message printed by the very same branch names `(0,1]` as the valid
range. -/
theorem C8_minAltFreq_one_rejected :
    minAltFreqRejected 1 = true ∧ (0 : ℚ) < 1 ∧ (1 : ℚ) ≤ 1 := by
  refine ⟨by decide, by norm_num, by norm_num⟩

/-- Claim C2, counterexample: decoding `^I.` with declared coverage 1
succeeds with an empty allele-count mapping — the base call `.` following
the quality byte is swallowed by the `^` handler (`i += 3`, line 94), so
it is never recorded, contradicting the claim that it is recorded exactly
once. -/
theorem C2_counterexample :
    parse_readBase ['^', 'I', '.'] "A" 1 = .ok ⟨[], 1⟩ ∧
    ([] : List String).count "A" ≠ 1 := by
  exact ⟨rfl, by decide⟩

/-- Claim C2, amended: a `^` read-start marker consumes itself, the
quality byte and the following base-call character as a three-byte group
(`i += 3`), counts exactly once toward coverage (`sanity_counter += 1`),
and records nothing in the allele-count mapping. -/
theorem C2_amended_caret_consumes_three (rb : List Char) (ref : String) (i : Nat)
    (h : rb.get? i = some '^') :
    (∀ st : ScanState,
      parseStep rb ref i st = .cont (i + 3) { st with sanity := st.sanity + 1 }) ∧
    (∀ (fuel : Nat) (st : ScanState),
      parseScanAux rb ref (fuel + 1) i st =
        parseScanAux rb ref fuel (i + 3) { st with sanity := st.sanity + 1 }) := by
  have hstep : ∀ st : ScanState,
      parseStep rb ref i st = .cont (i + 3) { st with sanity := st.sanity + 1 } := by
    intro st
    simp only [parseStep, h]
    simp [baseChars]
  exact ⟨hstep, fun fuel st => by simp [parseScanAux, hstep st]⟩

theorem C2_amended_witness :
    (['^', 'I', '.'].get? 0 = some '^') ∧
    parseStep ['^', 'I', '.'] "A" 0 ⟨[], 0⟩ = .cont 3 ⟨[], 1⟩ :=
  ⟨rfl, (C2_amended_caret_consumes_three ['^', 'I', '.'] "A" 0 rfl).1 ⟨[], 0⟩⟩

/-- Claim C3, counterexample: the deletion-only encoding `*` with
declared coverage 0 decodes successfully (counted coverage 1 differs from
declared coverage 0, the encoding is not empty), yet line 123 does not
raise — its explicit second disjunct `self.readBase=='*' and self.cov==0`
excuses exactly this case, contradicting the claim that it is fatal. -/
theorem C3_counterexample :
    parse_readBase ['*'] "T" 0 = .ok ⟨[], 1⟩ ∧
    ((0 : Int) ≠ ((1 : Nat) : Int)) ∧ (['*'] ≠ ([] : List Char)) := by
  exact ⟨rfl, by decide, by decide⟩

/-- Claim C3, amended: when the scan of the encoding completes, the
assertion on line 123 is fatal exactly when the counted coverage differs
from the declared coverage, with the single exception of the encoding
`*` paired with declared coverage zero (an empty encoding with declared
coverage zero passes because its counted coverage is zero, not via an
exception). -/
theorem C3_amended_assert_condition (rb : List Char) (ref : String) (cov : Int)
    (st : ScanState) (h : parse_readBaseScan rb ref = .ok st) :
    (parse_readBase rb ref cov = .error .assertionError ↔
      ¬ (cov = (st.sanity : Int) ∨ (rb = ['*'] ∧ cov = 0))) ∧
    (parse_readBase rb ref cov ≠ .error .assertionError →
      parse_readBase rb ref cov = .ok st) := by
  unfold parse_readBase
  rw [h]
  by_cases hc : cov = (st.sanity : Int) ∨ (rb = ['*'] ∧ cov = 0) <;> simp [hc]

theorem C3_amended_witness :
    (parse_readBaseScan ['.'] "A" = .ok ⟨["A"], 1⟩) ∧
    parse_readBase ['.'] "A" 5 = .error .assertionError :=
  ⟨rfl, (C3_amended_assert_condition ['.'] "A" 5 ⟨["A"], 1⟩ rfl).1.mpr (by decide)⟩

/-- Claim C6 (confirmed): for a variant with positive resolved total
coverage, the cascade on lines 314-323 applies the thresholds in fixed
order with first match winning — low coverage, then low frequency, then
low quality (only when a quality score is present) — otherwise the
variant is accepted; an absent quality score bypasses the quality check
(accepted with a logged warning) rather than being rejected. -/
theorem C6_classification_cascade (total_cov alt_count : Int) (qual : Option ℚ)
    (min_coverage : Int) (min_alt_freq min_qual : ℚ) (hpos : 0 < total_cov) :
    (classifyVariant total_cov alt_count qual min_coverage min_alt_freq min_qual =
        .ok .rejectLowCoverage ↔ total_cov < min_coverage) ∧
    (classifyVariant total_cov alt_count qual min_coverage min_alt_freq min_qual =
        .ok .rejectLowFrequency ↔
      ¬ total_cov < min_coverage ∧ (alt_count : ℚ) / (total_cov : ℚ) < min_alt_freq) ∧
    (classifyVariant total_cov alt_count qual min_coverage min_alt_freq min_qual =
        .ok .rejectLowQuality ↔
      ¬ total_cov < min_coverage ∧ ¬ (alt_count : ℚ) / (total_cov : ℚ) < min_alt_freq ∧
        ∃ q, qual = some q ∧ q < min_qual) ∧
    (qual = none → ¬ total_cov < min_coverage →
      ¬ (alt_count : ℚ) / (total_cov : ℚ) < min_alt_freq →
      classifyVariant total_cov alt_count qual min_coverage min_alt_freq min_qual =
        .ok (.accept true)) ∧
    (∀ q, qual = some q → ¬ total_cov < min_coverage →
      ¬ (alt_count : ℚ) / (total_cov : ℚ) < min_alt_freq → ¬ q < min_qual →
      classifyVariant total_cov alt_count qual min_coverage min_alt_freq min_qual =
        .ok (.accept false)) := by
  have hne : total_cov ≠ 0 := by omega
  unfold classifyVariant
  rw [if_neg hne]
  by_cases h1 : total_cov < min_coverage
  · simp [h1]
  · by_cases h2 : (alt_count : ℚ) / (total_cov : ℚ) < min_alt_freq
    · simp [h1, h2]
    · cases qual with
      | none => simp [h1, h2]
      | some q => by_cases h3 : q < min_qual <;> simp [h1, h2, h3]

theorem C6_witness :
    (0 : Int) < 10 ∧
    classifyVariant 10 9 (some 120) 4 (1 / 2) 100 = .ok (.accept false) :=
  ⟨by norm_num,
    (C6_classification_cascade 10 9 (some 120) 4 (1 / 2) 100 (by norm_num)).2.2.2.2 120 rfl
      (by norm_num) (by norm_num) (by norm_num)⟩

theorem parseStep_ne_formatError (rb : List Char) (ref : String) (i : Nat) (st : ScanState) :
    parseStep rb ref i st ≠ .error .formatError := by
  unfold parseStep
  cases rb.get? i with
  | none => simp
  | some b =>
    repeat' split
    all_goals simp

theorem parseScanAux_ne_formatError (rb : List Char) (ref : String) :
    ∀ (fuel i : Nat) (st : ScanState),
      parseScanAux rb ref fuel i st ≠ .error .formatError := by
  intro fuel
  induction fuel with
  | zero => intro i st; simp [parseScanAux]
  | succ n ih =>
    intro i st
    rw [parseScanAux]
    cases h : parseStep rb ref i st with
    | error e =>
      have := parseStep_ne_formatError rb ref i st
      rw [h] at this
      simpa using this
    | done st2 => simp
    | cont i2 st2 => exact ih i2 st2

theorem parse_readBase_ne_formatError (rb : List Char) (ref : String) (cov : Int) :
    parse_readBase rb ref cov ≠ .error .formatError := by
  unfold parse_readBase
  cases h : parse_readBaseScan rb ref with
  | error e =>
    have := parseScanAux_ne_formatError rb ref (rb.length + 1) 0 ⟨[], 0⟩
    rw [parse_readBaseScan] at h
    rw [h] at this
    simpa using this
  | ok st =>
    split
    · simp_all
    · split <;> simp

theorem mkMPileUpRecord_ne_formatError (chr ref bq aq : String) (pos cov : Int)
    (rb : List Char) : mkMPileUpRecord chr pos ref cov rb bq aq ≠ .error .formatError := by
  unfold mkMPileUpRecord
  cases h : parse_readBase rb (pyUpper ref) cov with
  | error e =>
    have := parse_readBase_ne_formatError rb (pyUpper ref) cov
    rw [h] at this
    simpa using this
  | ok st => simp

/-- Claim C7, amended: `parseLine` accepts exactly three physical line
shapes — 7-field and 15-field tab-separated records (line 151 tests
`len(raw)==7 or len(raw)==15`, both parsed from the first seven fields)
and a 4-field record, which synthesizes a zero-coverage record with
empty read-base encoding — and every other field count raises the fatal
format error of line 174. -/
theorem C7_amended_accepted_shapes :
    (∀ raw : List String,
      parseLine raw = .error .formatError ↔
        ¬ (raw.length = 7 ∨ raw.length = 15 ∨ raw.length = 4)) ∧
    (∀ (raw : List String) (pos1 : Int), raw.length = 4 →
      pyInt (raw.getD 1 "") = some pos1 →
      parseLine raw =
        .ok ⟨raw.getD 0 "", pos1 - 1, pyUpper (raw.getD 2 ""), 0, [], "", "", [], 0, 0⟩) := by
  constructor
  · intro raw
    by_cases h7 : raw.length = 7 ∨ raw.length = 15
    · rw [parseLine, if_pos h7]
      have hne : (match pyInt (raw.getD 3 "") with
          | none => (.error .valueError : Except PyErr MPileUpRecord)
          | some cov =>
            match pyInt (raw.getD 1 "") with
            | none => .error .valueError
            | some pos1 =>
              mkMPileUpRecord (raw.getD 0 "") (pos1 - 1) (raw.getD 2 "") cov
                (raw.getD 4 "").data (raw.getD 5 "") (raw.getD 6 "")) ≠
          .error .formatError := by
        cases pyInt (raw.getD 3 "") with
        | none => simp
        | some cov =>
          cases pyInt (raw.getD 1 "") with
          | none => simp
          | some pos1 => exact mkMPileUpRecord_ne_formatError _ _ _ _ _ _ _
      have hdisj : raw.length = 7 ∨ raw.length = 15 ∨ raw.length = 4 := by
        rcases h7 with h | h
        · exact Or.inl h
        · exact Or.inr (Or.inl h)
      exact iff_of_false hne (not_not_intro hdisj)
    · by_cases h4 : raw.length = 4
      · rw [parseLine, if_neg h7, if_pos h4]
        have hne : (match pyInt (raw.getD 1 "") with
            | none => (.error .valueError : Except PyErr MPileUpRecord)
            | some pos1 =>
              mkMPileUpRecord (raw.getD 0 "") (pos1 - 1) (raw.getD 2 "") 0 [] "" "") ≠
            .error .formatError := by
          cases pyInt (raw.getD 1 "") with
          | none => simp
          | some pos1 => exact mkMPileUpRecord_ne_formatError _ _ _ _ _ _ _
        exact iff_of_false hne (not_not_intro (Or.inr (Or.inr h4)))
      · rw [parseLine, if_neg h7, if_neg h4]
        simp [h7, h4]
  · intro raw pos1 h4 hp
    have h7 : ¬ (raw.length = 7 ∨ raw.length = 15) := by omega
    rw [parseLine, if_neg h7, if_pos h4, hp]
    rfl

theorem C7_amended_witness :
    ((["f", "8729", "T", "0"] : List String).length = 4) ∧
    parseLine ["f", "8729", "T", "0"] =
      .ok ⟨"f", 8728, "T", 0, [], "", "", [], 0, 0⟩ :=
  ⟨rfl, C7_amended_accepted_shapes.2 ["f", "8729", "T", "0"] 8729 rfl rfl⟩

/-- Claim C7, counterexample: a well-formed 15-field line is accepted by
`parseLine` (line 151 tests `len(raw)==7 or len(raw)==15`), so the claim
that only 7- and 4-field lines are accepted and every other field count
is a fatal format error is false. -/
theorem C7_counterexample :
    (["chr1", "100", "A", "2", "..", ";;", "]]",
      "x", "x", "x", "x", "x", "x", "x", "x"] : List String).length = 15 ∧
    (15 : Nat) ≠ 7 ∧ (15 : Nat) ≠ 4 ∧
    parseLine ["chr1", "100", "A", "2", "..", ";;", "]]",
        "x", "x", "x", "x", "x", "x", "x", "x"] =
      .ok ⟨"chr1", 99, "A", 2, ['.', '.'], ";;", "]]", ["A", "A"], 2, 1⟩ :=
  ⟨rfl, by decide, by decide, rfl⟩

theorem firstNonNAux_allN (l : List (Option String)) (hall : ∀ e ∈ l, e = some "N") :
    ∀ i : Nat, firstNonNAux l i = .error .keyError := by
  induction l with
  | nil => intro i; rfl
  | cons e rest ih =>
    intro i
    have he : e = some "N" := hall e (by simp)
    subst he
    rw [firstNonNAux, if_pos rfl]
    exact ih (fun x hx => hall x (by simp [hx])) (i + 1)

theorem makeSeqAux_replicateN :
    ∀ n : Nat, makeSeqAux (List.replicate n (some "N")) n = String.mk (List.replicate n 'N') := by
  intro n
  induction n with
  | zero => rfl
  | succ m ih =>
    rw [List.replicate_succ, List.replicate_succ]
    show (some "N").getD "" ++ makeSeqAux (List.replicate m (some "N")) m =
      String.mk ('N' :: List.replicate m 'N')
    rw [ih]
    rfl

/-- Claim C9 (confirmed): when every position of the consensus table
holds `"N"` (for example when every position is below `min_coverage`),
the scan `while newseqlist[i]=='N'` on line 341 runs past the last key
and raises an uncaught `KeyError`, so fragment emission fails instead of
completing with an empty fragment file; the full consensus (the all-`N`
string) has already been computed and written by lines 334-337, which
run first (the first component of `consensusOutputs`), leaving that
output behind. -/
theorem C9_allN_fragments_keyError (tbl : List (Option String)) (L : Nat)
    (hL : L = tbl.length) (hall : ∀ e ∈ tbl, e = some "N") :
    (consensusOutputs tbl L).2 = .error .keyError ∧
    (consensusOutputs tbl L).1 = String.mk (List.replicate tbl.length 'N') := by
  have htbl : tbl = List.replicate tbl.length (some "N") := List.eq_replicate_length.mpr hall
  constructor
  · show emitFrags tbl = .error .keyError
    rw [emitFrags, firstNonN, firstNonNAux_allN tbl hall 0]
  · show make_seq_from_list tbl 0 L = _
    rw [make_seq_from_list, List.drop_zero, Nat.sub_zero, hL]
    conv_lhs => rw [htbl]
    simp only [List.length_replicate]
    exact makeSeqAux_replicateN tbl.length

theorem C9_witness :
    (∀ e ∈ [some "N", some "N"], e = some "N") ∧
    (consensusOutputs [some "N", some "N"] 2).2 = .error .keyError ∧
    (consensusOutputs [some "N", some "N"] 2).1 = String.mk (List.replicate 2 'N') :=
  ⟨by decide, C9_allN_fragments_keyError [some "N", some "N"] 2 rfl (by decide)⟩

theorem scanJAux_ge (size : Nat) :
    ∀ (l : List (Option String)) (j : Nat), j ≤ scanJAux size l j := by
  intro l
  induction l with
  | nil => intro j; rw [scanJAux]; split <;> omega
  | cons e rest ih =>
    intro j
    rw [scanJAux]
    split
    · exact le_trans (by omega) (ih (j + 1))
    · exact le_refl j

theorem scanJAux_le (size : Nat) :
    ∀ (l : List (Option String)) (j : Nat), j ≤ size → scanJAux size l j ≤ size := by
  intro l
  induction l with
  | nil => intro j hj; rw [scanJAux]; split <;> omega
  | cons e rest ih =>
    intro j hj
    rw [scanJAux]
    split
    · rename_i hcond
      exact ih (j + 1) (by omega)
    · exact hj

theorem scanJ_ge (tbl : List (Option String)) (size j : Nat) : j ≤ scanJ tbl size j :=
  scanJAux_ge size (tbl.drop j) j

theorem scanJ_le (tbl : List (Option String)) (size j : Nat) (h : j ≤ size) :
    scanJ tbl size j ≤ size :=
  scanJAux_le size (tbl.drop j) j h

theorem emitLoop_frags_bounded (tbl : List (Option String)) (size : Nat) :
    ∀ (fuel i jPrev : Nat) (frags : List Frag) (iF jF : Nat),
      emitLoop tbl size fuel i jPrev = .ok (frags, iF, jF) → jPrev ≤ size →
      (∀ fr ∈ frags, ∃ a b : Nat, a < b ∧ b ≤ size ∧
        fr = (a + 1, make_seq_from_list tbl a b)) ∧ jF ≤ size := by
  intro fuel
  induction fuel with
  | zero =>
    intro i jPrev frags iF jF h hj
    exact absurd h (by simp [emitLoop])
  | succ n ih =>
    intro i jPrev frags iF jF h hj
    rw [emitLoop] at h
    by_cases hc : i < size - 1
    · rw [if_pos hc] at h
      cases h2 : emitLoop tbl size n
          (scanI tbl size (scanJ tbl size (i + 1) + 1)) (scanJ tbl size (i + 1)) with
      | error e => rw [h2] at h; exact absurd h (by simp)
      | ok trip =>
        obtain ⟨rest, iF2, jF2⟩ := trip
        rw [h2] at h
        simp only [Except.ok.injEq, Prod.mk.injEq] at h
        obtain ⟨h3, h4, h5⟩ := h
        subst h3; subst h4; subst h5
        have hj1 : scanJ tbl size (i + 1) ≤ size := scanJ_le tbl size (i + 1) (by omega)
        obtain ⟨ihf, ihj⟩ := ih _ _ _ _ _ h2 hj1
        refine ⟨?_, ihj⟩
        intro fr hfr
        rcases List.mem_cons.mp hfr with hm | hm
        · refine ⟨i, scanJ tbl size (i + 1), ?_, hj1, hm⟩
          have := scanJ_ge tbl size (i + 1)
          omega
        · exact ihf fr hm
    · rw [if_neg hc] at h
      simp only [Except.ok.injEq, Prod.mk.injEq] at h
      obtain ⟨h3, h4, h5⟩ := h
      subst h3; subst h4; subst h5
      exact ⟨by intro fr hfr; simp at hfr, hj⟩

theorem makeSeqAux_take :
    ∀ (n m : Nat) (l : List (Option String)), n ≤ m →
      makeSeqAux (l.take m) n = makeSeqAux l n := by
  intro n
  induction n with
  | zero => intro m l h; cases l <;> cases m <;> rfl
  | succ k ih =>
    intro m l h
    cases m with
    | zero => omega
    | succ m2 =>
      cases l with
      | nil => rfl
      | cons e rest =>
        show e.getD "" ++ makeSeqAux (rest.take m2) k = e.getD "" ++ makeSeqAux rest k
        rw [ih m2 rest (by omega)]

theorem makeSeqAux_split :
    ∀ (n m : Nat) (l : List (Option String)),
      makeSeqAux l (n + m) = makeSeqAux l n ++ makeSeqAux (l.drop n) m := by
  intro n
  induction n with
  | zero =>
    intro m l
    rw [List.drop_zero, Nat.zero_add]
    cases l <;> rfl
  | succ k ih =>
    intro m l
    cases l with
    | nil =>
      rw [List.drop_nil]
      cases m <;> rfl
    | cons e rest =>
      have harith : k + 1 + m = (k + m) + 1 := by omega
      rw [harith]
      show e.getD "" ++ makeSeqAux rest (k + m) =
        (e.getD "" ++ makeSeqAux rest k) ++ makeSeqAux (rest.drop k) m
      rw [ih m rest, string_append_assoc]

theorem make_seq_take (tbl : List (Option String)) (a b t : Nat) (h : b ≤ t) :
    make_seq_from_list (tbl.take t) a b = make_seq_from_list tbl a b := by
  rw [make_seq_from_list, make_seq_from_list, List.drop_take]
  exact makeSeqAux_take (b - a) (t - a) (tbl.drop a) (by omega)

theorem make_seq_split (tbl : List (Option String)) (m L : Nat) (h : m ≤ L) :
    make_seq_from_list tbl 0 L = make_seq_from_list tbl 0 m ++ make_seq_from_list tbl m L := by
  rw [make_seq_from_list, make_seq_from_list, make_seq_from_list, List.drop_zero,
    Nat.sub_zero, Nat.sub_zero]
  have hL : L = m + (L - m) := by omega
  conv_lhs => rw [hL]
  exact makeSeqAux_split m (L - m) tbl

/-- Claim C10 (confirmed): the fragment scan bounds its indices by
`len(newseqlist)` — the number of keys left in the consensus table — not
by the reference length.  When accepted deletions removed `k ≥ 1` keys
from a table of reference length `L`, every emitted fragment is
`make_seq_from_list tbl a b` with `b ≤ L - k`, so it reads nothing from
positions `≥ L - k` (equivalently, it equals the same scan over
`tbl.take (L - k)`); the full consensus, by contrast, is built over all
of `0..L` and decomposes into the part below `L - k` followed by the
trailing part, which therefore appears in the full consensus but in no
emitted fragment. -/
theorem C10_fragments_bounded_by_dict_size (tbl : List (Option String))
    (frags : List Frag) (k : Nat) (hfr : emitFrags tbl = .ok frags) (hk : 1 ≤ k)
    (hsz : presentCount tbl + k = tbl.length) :
    (∀ fr ∈ frags, ∃ a b : Nat, a < b ∧ b ≤ tbl.length - k ∧
      fr = (a + 1, make_seq_from_list tbl a b) ∧
      make_seq_from_list tbl a b = make_seq_from_list (tbl.take (tbl.length - k)) a b) ∧
    make_seq_from_list tbl 0 tbl.length =
      make_seq_from_list tbl 0 (tbl.length - k) ++
        make_seq_from_list tbl (tbl.length - k) tbl.length := by
  have hsize : presentCount tbl = tbl.length - k := by omega
  constructor
  · intro fr hfrm
    rw [emitFrags] at hfr
    cases h0 : firstNonN tbl with
    | error e => rw [h0] at hfr; simp at hfr
    | ok i0 =>
      rw [h0] at hfr
      dsimp only at hfr
      by_cases hc : i0 < presentCount tbl - 1
      · rw [if_pos hc] at hfr
        cases h1 : emitLoop tbl (presentCount tbl) (presentCount tbl + 1) i0 0 with
        | error e => rw [h1] at hfr; simp at hfr
        | ok trip =>
          obtain ⟨fr0, iF, jF⟩ := trip
          rw [h1] at hfr
          dsimp only at hfr
          obtain ⟨hbf, hjf⟩ :=
            emitLoop_frags_bounded tbl (presentCount tbl) _ _ _ _ _ _ h1 (by omega)
          by_cases hj : jF > iF
          · rw [if_pos hj] at hfr
            simp only [Except.ok.injEq] at hfr
            subst hfr
            rcases List.mem_append.mp hfrm with hm | hm
            · obtain ⟨a, b, hab, hbs, hfr2⟩ := hbf fr hm
              exact ⟨a, b, hab, by omega, hfr2,
                (make_seq_take tbl a b (tbl.length - k) (by omega)).symm⟩
            · simp only [List.mem_singleton] at hm
              subst hm
              exact ⟨iF, jF, hj, by omega, rfl,
                (make_seq_take tbl iF jF (tbl.length - k) (by omega)).symm⟩
          · rw [if_neg hj] at hfr
            simp only [Except.ok.injEq] at hfr
            subst hfr
            obtain ⟨a, b, hab, hbs, hfr2⟩ := hbf fr hfrm
            exact ⟨a, b, hab, by omega, hfr2,
              (make_seq_take tbl a b (tbl.length - k) (by omega)).symm⟩
      · rw [if_neg hc] at hfr; exact absurd hfr (by simp)
  · exact make_seq_split tbl (tbl.length - k) tbl.length (by omega)

/-- Claim C4, counterexample: on the claimed scenario (reference length
10, depth 10 at 0-based positions 2-7, `min_coverage` 4, no variants),
the code produces `"NNGTACGNNN"` — the loop on line 261 runs from
`max(depth_per_pos)` inclusive, so the covered position 7 is also masked
— and one fragment `frag3` spanning 1-based positions 3-7, not the
claimed `"NNGTACGTNN"` with `frag3` spanning 3-8. -/
theorem C4_counterexample :
    genVCFcons_outputs ['A', 'C', 'G', 'T', 'A', 'C', 'G', 'T', 'A', 'C']
        [(2, 10), (3, 10), (4, 10), (5, 10), (6, 10), (7, 10)] 4 =
      .ok ("NNGTACGNNN", .ok [(3, "GTACG")]) ∧
    "NNGTACGNNN" ≠ "NNGTACGTNN" ∧
    [((3 : Nat), "GTACG")] ≠ [((3 : Nat), "GTACGT")] := by
  refine ⟨rfl, by decide, by decide⟩

/-- Claim C4, amended: for a reference of length 10 whose bases at
0-based positions 2-6 are not `N`, a depth table giving depth 10 for
positions 2-7 and nothing else, `min_coverage` 4 and no variants, the
full consensus keeps the reference bases only at positions 2-6 (position
7, the maximum depth key, is masked by the line-261 loop along with
0, 1, 8, 9), and exactly one fragment is emitted, labeled `frag3`,
spanning 1-based positions 3 through 7. -/
theorem C4_amended_scenario (c0 c1 c2 c3 c4 c5 c6 c7 c8 c9 : Char)
    (h2 : String.singleton c2 ≠ "N") (h3 : String.singleton c3 ≠ "N")
    (h4 : String.singleton c4 ≠ "N") (h5 : String.singleton c5 ≠ "N")
    (h6 : String.singleton c6 ≠ "N") :
    genVCFcons_outputs [c0, c1, c2, c3, c4, c5, c6, c7, c8, c9]
        [(2, 10), (3, 10), (4, 10), (5, 10), (6, 10), (7, 10)] 4 =
      .ok (String.mk ['N', 'N', c2, c3, c4, c5, c6, 'N', 'N', 'N'],
           .ok [(3, String.mk [c2, c3, c4, c5, c6])]) := by
  have hfrag : emitFrags
      [some "N", some "N", some (String.singleton c2), some (String.singleton c3),
       some (String.singleton c4), some (String.singleton c5),
       some (String.singleton c6), some "N", some "N", some "N"] =
      .ok [(3, String.mk [c2, c3, c4, c5, c6])] := by
    have hs : String.singleton c2 ++ (String.singleton c3 ++ (String.singleton c4 ++
        (String.singleton c5 ++ String.singleton c6))) =
        String.mk [c2, c3, c4, c5, c6] := by
      apply string_ext
      simp [string_data_append, String.singleton]
    simp [emitFrags, firstNonN, firstNonNAux, presentCount, emitLoop, scanJ, scanJAux,
      scanI, scanIAux, make_seq_from_list, makeSeqAux, h2, h3, h4, h5, h6, hs]
  show Except.ok
      (make_seq_from_list
        [some "N", some "N", some (String.singleton c2), some (String.singleton c3),
         some (String.singleton c4), some (String.singleton c5),
         some (String.singleton c6), some "N", some "N", some "N"] 0 10,
       emitFrags
        [some "N", some "N", some (String.singleton c2), some (String.singleton c3),
         some (String.singleton c4), some (String.singleton c5),
         some (String.singleton c6), some "N", some "N", some "N"]) = _
  rw [hfrag]
  rfl

theorem C4_amended_witness :
    (String.singleton 'G' ≠ "N") ∧ (String.singleton 'T' ≠ "N") ∧
    (String.singleton 'A' ≠ "N") ∧ (String.singleton 'C' ≠ "N") ∧
    genVCFcons_outputs ['A', 'C', 'G', 'T', 'A', 'C', 'G', 'T', 'A', 'C']
        [(2, 10), (3, 10), (4, 10), (5, 10), (6, 10), (7, 10)] 4 =
      .ok (String.mk ['N', 'N', 'G', 'T', 'A', 'C', 'G', 'N', 'N', 'N'],
           .ok [(3, String.mk ['G', 'T', 'A', 'C', 'G'])]) :=
  ⟨by decide, by decide, by decide, by decide,
    C4_amended_scenario 'A' 'C' 'G' 'T' 'A' 'C' 'G' 'T' 'A' 'C'
      (by decide) (by decide) (by decide) (by decide) (by decide)⟩

/-- Claim C5, counterexample: with reference `"AC"`, a depth table
covering both positions, `min_coverage` 0 and no variants, the emitted
full consensus is `"AN"`, not `"AC"`: the loop on line 261 masks the
position `max(depth_per_pos)` — here the final base — with `N`, so the
identity round-trip fails. -/
theorem C5_counterexample :
    genVCFcons_outputs ['A', 'C'] [(0, 5), (1, 7)] 0 =
      .ok ("AN", .ok [(1, "A")]) ∧
    "AN" ≠ "AC" := by
  refine ⟨rfl, by decide⟩

theorem maskDepthAux_get? (depth : List (Int × Int)) (mc : Int) :
    ∀ (l : List (Option String)) (p q : Nat),
      (maskDepthAux depth mc p l).get? q =
        (l.get? q).map (maskDepthCell depth mc (p + q)) := by
  intro l
  induction l with
  | nil => intro p q; simp [maskDepthAux]
  | cons e rest ih =>
    intro p q
    cases q with
    | zero => simp [maskDepthAux]
    | succ q2 =>
      rw [maskDepthAux]
      rw [List.get?_cons_succ, List.get?_cons_succ, ih (p + 1) q2]
      have harith : p + 1 + q2 = p + (q2 + 1) := by omega
      rw [harith]

theorem maskEndsAux_get? (mn mx : Int) :
    ∀ (l : List (Option String)) (p q : Nat),
      (maskEndsAux mn mx p l).get? q = (l.get? q).map (maskEndsCell mn mx (p + q)) := by
  intro l
  induction l with
  | nil => intro p q; simp [maskEndsAux]
  | cons e rest ih =>
    intro p q
    cases q with
    | zero => simp [maskEndsAux]
    | succ q2 =>
      rw [maskEndsAux]
      rw [List.get?_cons_succ, List.get?_cons_succ, ih (p + 1) q2]
      have harith : p + 1 + q2 = p + (q2 + 1) := by omega
      rw [harith]

theorem makeSeqAux_map_singleton_append :
    ∀ l : List Char,
      makeSeqAux ((l.map fun c => some (String.singleton c)) ++ [some "N"])
        (l.length + 1) = String.mk l ++ "N" := by
  intro l
  induction l with
  | nil => rfl
  | cons c rest ih =>
    show String.singleton c ++
        makeSeqAux ((rest.map fun x => some (String.singleton x)) ++ [some "N"])
          (rest.length + 1) =
      String.mk (c :: rest) ++ "N"
    rw [ih]
    apply string_ext
    simp [string_data_append, String.singleton]

/-- Claim C5, amended: with `min_coverage` 0, no variants, and a
non-empty depth table whose keys have minimum 0 and maximum
`len(ref) - 1` and which covers every reference position with a
non-negative depth, the consensus table keeps every reference base
except at the final position, which the line-261 loop
(`range(max(depth_per_pos), len(refseq))`) overwrites with `N`; the
emitted full consensus is therefore the reference with its last base
replaced by `N`, not the reference itself (and an empty depth table is a
fatal `ValueError` at line 260). -/
theorem C5_amended_last_base_masked (refseq : List Char) (depth : List (Int × Int))
    (hne : refseq ≠ [])
    (hmin : minKey depth = some 0)
    (hmax : maxKey depth = some ((refseq.length : Int) - 1))
    (hcov : ∀ p : Nat, p < refseq.length →
      ∃ v, depthLookup depth (p : Int) = some v ∧ 0 ≤ v) :
    genVCFcons_table refseq depth 0 =
      .ok ((refseq.dropLast.map fun c => some (String.singleton c)) ++ [some "N"]) ∧
    make_seq_from_list
        ((refseq.dropLast.map fun c => some (String.singleton c)) ++ [some "N"])
        0 refseq.length =
      String.mk refseq.dropLast ++ "N" := by
  have hL : 1 ≤ refseq.length := by
    cases refseq with
    | nil => exact absurd rfl hne
    | cons a l => simp
  constructor
  · rw [genVCFcons_table, hmin, hmax]
    dsimp only
    refine congrArg Except.ok (List.ext fun q => ?_)
    rw [maskEndsAux_get? 0 ((refseq.length : Int) - 1)
        (maskDepthAux depth 0 0 (initTable refseq)) 0 q,
      maskDepthAux_get? depth 0 (initTable refseq) 0 q,
      initTable, List.get?_map, Nat.zero_add]
    by_cases hq : q < refseq.length
    · have hc : refseq.get? q = some (refseq.get ⟨q, hq⟩) := List.get?_eq_get hq
      rw [hc]
      obtain ⟨v, hv, hv0⟩ := hcov q hq
      simp only [Option.map_some']
      rw [maskDepthCell, hv]
      dsimp only
      rw [if_neg (by omega : ¬ v < 0)]
      by_cases hql : q < refseq.length - 1
      · rw [maskEndsCell, if_neg (by omega)]
        rw [List.get?_append (by simpa using hql)]
        rw [List.get?_map, List.dropLast_eq_take, List.get?_take (by omega), hc]
        rfl
      · rw [maskEndsCell, if_pos (by omega)]
        rw [List.get?_append_right (by simpa using hql)]
        have hidx : q - (refseq.dropLast.map fun c => some (String.singleton c)).length = 0 := by
          simp only [List.length_map, List.length_dropLast]
          omega
        rw [hidx]
        rfl
    · have h1 : refseq.get? q = none := List.get?_eq_none.mpr (by omega)
      rw [h1]
      have h2 : ((refseq.dropLast.map fun c => some (String.singleton c)) ++
          [some "N"]).get? q = none := by
        apply List.get?_eq_none.mpr
        simp only [List.length_append, List.length_map, List.length_dropLast,
          List.length_singleton]
        omega
      rw [h2]
      rfl
  · rw [make_seq_from_list, List.drop_zero, Nat.sub_zero]
    have hlen : refseq.length = refseq.dropLast.length + 1 := by
      rw [List.length_dropLast]
      omega
    rw [hlen]
    exact makeSeqAux_map_singleton_append refseq.dropLast

theorem C5_amended_witness :
    (['A', 'C', 'G'] ≠ ([] : List Char)) ∧
    minKey [((0 : Int), (1 : Int)), (1, 2), (2, 3)] = some 0 ∧
    maxKey [((0 : Int), (1 : Int)), (1, 2), (2, 3)] =
      some (((['A', 'C', 'G'] : List Char).length : Int) - 1) ∧
    genVCFcons_table ['A', 'C', 'G'] [(0, 1), (1, 2), (2, 3)] 0 =
      .ok ((['A', 'C', 'G'].dropLast.map fun c => some (String.singleton c)) ++ [some "N"]) ∧
    make_seq_from_list
        ((['A', 'C', 'G'].dropLast.map fun c => some (String.singleton c)) ++ [some "N"])
        0 (['A', 'C', 'G'] : List Char).length =
      String.mk (['A', 'C', 'G'] : List Char).dropLast ++ "N" := by
  refine ⟨by decide, by decide, by decide, ?_⟩
  have h := C5_amended_last_base_masked ['A', 'C', 'G'] [(0, 1), (1, 2), (2, 3)]
    (by decide) (by decide) (by decide)
    (by
      intro p hp
      have hp3 : p < 3 := by simpa using hp
      interval_cases p
      · exact ⟨1, by decide, by decide⟩
      · exact ⟨2, by decide, by decide⟩
      · exact ⟨3, by decide, by decide⟩)
  exact h

theorem C10_witness :
    emitFrags [some "A", none, some "C"] = .ok [(1, "A")] ∧
    presentCount [some "A", none, some "C"] + 1 = 3 ∧
    make_seq_from_list [some "A", none, some "C"] 0 3 =
      make_seq_from_list [some "A", none, some "C"] 0 2 ++
        make_seq_from_list [some "A", none, some "C"] 2 3 :=
  ⟨rfl, rfl,
    (C10_fragments_bounded_by_dict_size [some "A", none, some "C"] [(1, "A")] 1
      rfl (by decide) rfl).2⟩

end VCFConsSpec
